import Mathlib

/-!
Verification of the playback / playlist core of the `music_bot` repository.

The development shallowly embeds, in Lean 4:

* the JSON playlist store managed by `playlist_manager.py` (an insertion
  ordered mapping of playlist name to list of track dictionaries, mirroring
  Python `dict` semantics);
* the `PlayingState` dataclass and the playback coroutines of
  `discord_client.py` (`start_playback`, `pause_toggle`, `ensure_join`,
  `leave_voice`), with wall-clock time passed explicitly as a rational;
* the end-of-track policy of `gui.py` (`MusicGUI.on_track_end` and the
  relevant parts of `MusicGUI.tick`).

Python-specific behaviour is modelled explicitly where it matters:

* Python `dict` preserves insertion order; it is embedded as an association
  list whose update operation replaces in place and whose insertion appends.
* Python list indexing accepts negative indices (wrapping once) and raises
  `IndexError` otherwise; embedded as `pyGet` / `pySet` returning `Option`.
* Python `int()` truncates toward zero; embedded as `pyint` on `ℚ`.
* An attribute that may be unset (or an expression that raises) is embedded
  with `Option`, `none` standing for Python `None` (or for the raised
  exception, in the result type of an operation — each definition states
  which).
-/

namespace MusicBot

/-! ## Python dictionaries and lists

`playlist_manager.py` stores `Dict[str, List[Dict[str, Any]]]`.  The values
appearing in track dictionaries in this program are strings, integers,
booleans and `None` (`{"title": str, "url": str, "vid": str|None}`), captured
by `JVal`. -/

/-- A primitive JSON-serialisable Python value appearing in a track record. -/
inductive JVal where
  | s (v : String)
  | i (v : ℤ)
  | b (v : Bool)
  | null
deriving Repr, DecidableEq

/-- A track record: a Python `dict` in insertion order (`{"title": …, "url": …, "vid": …}`). -/
abbrev TrackD := List (String × JVal)

/-- The playlist store: Python `Dict[str, List[Dict[str, Any]]]` in insertion order. -/
abbrev Store := List (String × List TrackD)

/-- Python `d[k]` read / `k in d` test on an insertion-ordered dict. -/
def dlookup (k : String) : List (String × α) → Option α
  | [] => none
  | kv :: rest => if kv.1 = k then some kv.2 else dlookup k rest

/-- Python `d.pop(k)`: remove the entry for `k` (keys are unique in a real dict,
so removing the first occurrence is exact). -/
def dpop (k : String) : List (String × α) → List (String × α)
  | [] => []
  | kv :: rest => if kv.1 = k then rest else kv :: dpop k rest

/-- Python `d[k] = v`: replace in place if `k` is present, else append at the end. -/
def dset (k : String) (v : α) : List (String × α) → List (String × α)
  | [] => [(k, v)]
  | kv :: rest => if kv.1 = k then (k, v) :: rest else kv :: dset k v rest

/-- Normalise a Python list index: indices in `[0, n)` are used as is, indices
in `[-n, 0)` wrap once, anything else is an `IndexError` (`none`). -/
def pyIdx (n : ℕ) (i : ℤ) : Option ℕ :=
  if 0 ≤ i ∧ i < (n : ℤ) then some i.toNat
  else if -(n : ℤ) ≤ i ∧ i < 0 then some (i + n).toNat
  else none

/-- Python `xs[i]` on a list (negative indices wrap; out of range raises). -/
def pyGet (xs : List α) (i : ℤ) : Option α :=
  (pyIdx xs.length i).bind xs.get?

/-- Python `xs[i] = v` on a list (negative indices wrap; out of range raises). -/
def pySet (xs : List α) (i : ℤ) (v : α) : Option (List α) :=
  (pyIdx xs.length i).map (fun j => xs.set j v)

/-! ## PlaylistManager (playlist_manager.py)

Each operation is embedded as a pure transformer of the store.  Operations
that can raise a Python exception return `Except String Store`; the
playlist-level operations are total except `move_playlist` (which indexes a
list with an unchecked source index).  The `self.save()` call performed by
every mutating operation persists the returned store (see the JSON model
below); the no-op branches return before saving. -/

/-- Embeds `PlaylistManager.add_playlist`. -/
def add_playlist (d : Store) (name : String) : Store :=
  if (dlookup name d).isSome then d else d ++ [(name, [])]

/-- Embeds `PlaylistManager.rename_playlist`:
`self._data[new] = self._data.pop(old)` after the guard
`if old not in self._data or new in self._data: return`.  Since `new` is not
present, the dict assignment appends at the end of the insertion order. -/
def rename_playlist (d : Store) (old new : String) : Store :=
  match dlookup old d with
  | none => d
  | some ts => if (dlookup new d).isSome then d else dpop old d ++ [(new, ts)]

/-- Embeds `PlaylistManager.delete_playlist`. -/
def delete_playlist (d : Store) (name : String) : Store :=
  if (dlookup name d).isSome then dpop name d else d

/-- Embeds `PlaylistManager.move_playlist`.  The guard checks only
`new_idx = index + delta`; the tuple assignment
`keys[index], keys[new_idx] = keys[new_idx], keys[index]` evaluates the
right-hand side first and then assigns left to right, raising `IndexError`
(`none`) when `index` is out of range of Python list indexing. -/
def move_playlist (d : Store) (index delta : ℤ) : Option Store :=
  let keys := d.map Prod.fst
  let new_idx := index + delta
  if 0 ≤ new_idx ∧ new_idx < (keys.length : ℤ) then do
    let a ← pyGet keys new_idx
    let b ← pyGet keys index
    let k1 ← pySet keys index a
    let k2 ← pySet k1 new_idx b
    pure (k2.filterMap (fun k => (dlookup k d).map (fun v => (k, v))))
  else
    pure d

/-- Embeds `PlaylistManager._tracks`: raises `KeyError` when the playlist
name is absent from the store. -/
def _tracks (d : Store) (pl : String) : Except String (List TrackD) :=
  match dlookup pl d with
  | none => .error ("KeyError: Playlist not found: " ++ pl)
  | some ts => .ok ts

/-- Embeds `PlaylistManager.add_track`: `self._tracks(pl_name).append(track)`. -/
def add_track (d : Store) (pl : String) (t : TrackD) : Except String Store := do
  let ts ← _tracks d pl
  pure (dset pl (ts ++ [t]) d)

/-- Embeds `PlaylistManager.rename_track`: `tracks[idx]["title"] = new_title`
guarded by `0 <= idx < len(tracks)`. -/
def rename_track (d : Store) (pl : String) (idx : ℤ) (new_title : String) :
    Except String Store := do
  let ts ← _tracks d pl
  if 0 ≤ idx ∧ idx < (ts.length : ℤ) then
    match ts.get? idx.toNat with
    | some tr => pure (dset pl (ts.set idx.toNat (dset "title" (JVal.s new_title) tr)) d)
    | none => pure d    -- unreachable: the guard bounds the index
  else
    pure d

/-- Embeds `PlaylistManager.delete_track`: `tracks.pop(idx)` guarded by
`0 <= idx < len(tracks)`. -/
def delete_track (d : Store) (pl : String) (idx : ℤ) : Except String Store := do
  let ts ← _tracks d pl
  if 0 ≤ idx ∧ idx < (ts.length : ℤ) then
    pure (dset pl (ts.eraseIdx idx.toNat) d)
  else
    pure d

/-- Embeds `PlaylistManager.move_track`.  As in `move_playlist`, only the
destination index `new_idx = idx + delta` is range-checked; the swap
`tracks[idx], tracks[new_idx] = tracks[new_idx], tracks[idx]` uses Python
list indexing on the unchecked `idx`. -/
def move_track (d : Store) (pl : String) (idx delta : ℤ) : Except String Store := do
  let ts ← _tracks d pl
  let new_idx := idx + delta
  if 0 ≤ new_idx ∧ new_idx < (ts.length : ℤ) then
    match pyGet ts new_idx, pyGet ts idx with
    | some a, some b =>
      match pySet ts idx a with
      | some ts1 =>
        match pySet ts1 new_idx b with
        | some ts2 => pure (dset pl ts2 d)
        | none => .error "IndexError: list assignment index out of range"
      | none => .error "IndexError: list assignment index out of range"
    | _, _ => .error "IndexError: list index out of range"
  else
    pure d

/-! ## JSON persistence (PlaylistManager.save / PlaylistManager.load)

`save` is `json.dump(self._data, f, ensure_ascii=False, indent=2)` and `load`
is `self._data = json.load(f)`: the repository delegates the text layer to
the Python `json` standard library (an external collaborator in the spec's
architecture) and serialises the store verbatim.  The embedding therefore
works at the level of the JSON document tree written to / read from disk:
`save_json` is the tree `json.dump` receives, and `load_json` reads an
arbitrary tree back as a store (failing on trees that do not have the
store's shape, which `json.load` would hand back as-is). -/

/-- A JSON document tree. -/
inductive Json where
  | null
  | b (v : Bool)
  | i (v : ℤ)
  | s (v : String)
  | arr (elems : List Json)
  | obj (fields : List (String × Json))

/-- Serialise a primitive track value into JSON. -/
def JVal.toJson : JVal → Json
  | .s v => .s v
  | .i v => .i v
  | .b v => .b v
  | .null => .null

/-- Read a JSON leaf back as a primitive track value. -/
def jvalOfJson : Json → Option JVal
  | .s v => some (.s v)
  | .i v => some (.i v)
  | .b v => some (.b v)
  | .null => some .null
  | .arr _ => none
  | .obj _ => none

/-- Serialise one track record (a JSON object in insertion order). -/
def encodeTrack (t : TrackD) : Json :=
  .obj (t.map fun kv => (kv.1, kv.2.toJson))

/-- Read the fields of a JSON object back as a track record. -/
def decodeFields : List (String × Json) → Option TrackD
  | [] => some []
  | kv :: rest => do
      let v ← jvalOfJson kv.2
      let t ← decodeFields rest
      pure ((kv.1, v) :: t)

/-- Read a JSON value back as a track record. -/
def decodeTrack : Json → Option TrackD
  | .obj kvs => decodeFields kvs
  | _ => none

/-- Read a JSON array back as a list of track records. -/
def decodeTracks : List Json → Option (List TrackD)
  | [] => some []
  | j :: rest => do
      let t ← decodeTrack j
      let ts ← decodeTracks rest
      pure (t :: ts)

/-- The JSON document `PlaylistManager.save` writes for a given store. -/
def save_json (d : Store) : Json :=
  .obj (d.map fun kv => (kv.1, Json.arr (kv.2.map encodeTrack)))

/-- Auxiliary for `load_json`: read the top-level object fields. -/
def loadEntries : List (String × Json) → Option Store
  | [] => some []
  | kv :: rest =>
      match kv.2 with
      | .arr xs => do
          let ts ← decodeTracks xs
          let d ← loadEntries rest
          pure ((kv.1, ts) :: d)
      | _ => none

/-- The store `PlaylistManager.load` obtains from a JSON document of the
store's shape. -/
def load_json (j : Json) : Option Store :=
  match j with
  | .obj kvs => loadEntries kvs
  | _ => none

theorem jvalOfJson_toJson (v : JVal) : jvalOfJson v.toJson = some v := by
  cases v <;> rfl

theorem decodeTrack_encodeTrack (t : TrackD) : decodeTrack (encodeTrack t) = some t := by
  induction t with
  | nil => rfl
  | cons kv rest ih =>
      have h : decodeFields (List.map (fun kv => (kv.1, kv.2.toJson)) rest) = some rest := by
        simpa [encodeTrack, decodeTrack] using ih
      simp [encodeTrack, decodeTrack, decodeFields, jvalOfJson_toJson, h]

theorem decodeTracks_map_encode (ts : List TrackD) :
    decodeTracks (ts.map encodeTrack) = some ts := by
  induction ts with
  | nil => rfl
  | cons t rest ih =>
      simp [decodeTracks, decodeTrack_encodeTrack, ih]

theorem loadEntries_save (d : Store) :
    loadEntries (d.map fun kv => (kv.1, Json.arr (kv.2.map encodeTrack))) = some d := by
  induction d with
  | nil => rfl
  | cons kv rest ih =>
      simp [loadEntries, decodeTracks_map_encode, ih]

/-- C8: saving any playlist store with `PlaylistManager.save` and reading it
back with `PlaylistManager.load` reproduces the identical store — the same
playlist names in the same order and the same per-track fields in the same
order (round-trip law at the level of the JSON document the `json` standard
library serialises verbatim). -/
theorem save_then_load_round_trip (d : Store) : load_json (save_json d) = some d := by
  simp [save_json, load_json, loadEntries_save]

/-! ## Properties of the dictionary model -/

theorem dlookup_dpop_ne (d : List (String × α)) (k old : String) (h : k ≠ old) :
    dlookup k (dpop old d) = dlookup k d := by
  induction d with
  | nil => rfl
  | cons kv rest ih =>
      have h' : old ≠ k := fun hh => h hh.symm
      by_cases hk : kv.1 = old
      · simp [dpop, hk, dlookup, h']
      · by_cases hk2 : kv.1 = k
        · simp [dpop, hk, dlookup, hk2, h]
        · simp [dpop, hk, dlookup, hk2, ih]

theorem dlookup_dpop_of_none (d : List (String × α)) (k old : String)
    (h : dlookup k d = none) : dlookup k (dpop old d) = none := by
  induction d with
  | nil => rfl
  | cons kv rest ih =>
      by_cases hk2 : kv.1 = k
      · simp [dlookup, hk2] at h
      · by_cases hk : kv.1 = old <;>
          simp_all [dpop, dlookup, hk2]

theorem dlookup_append_of_none (l1 l2 : List (String × α)) (k : String)
    (h : dlookup k l1 = none) : dlookup k (l1 ++ l2) = dlookup k l2 := by
  induction l1 with
  | nil => rfl
  | cons kv rest ih =>
      by_cases hk : kv.1 = k
      · simp [dlookup, hk] at h
      · simp [dlookup, hk] at h ⊢
        exact ih h

theorem dlookup_append_of_some (l1 l2 : List (String × α)) (k : String) (v : α)
    (h : dlookup k l1 = some v) : dlookup k (l1 ++ l2) = some v := by
  induction l1 with
  | nil => simp [dlookup] at h
  | cons kv rest ih =>
      by_cases hk : kv.1 = k <;> simp_all [dlookup, hk]

/-- C10: a rename whose old name is missing, or whose new name already
exists, is a no-op; otherwise `rename_playlist` keeps the renamed playlist's
track list identical but moves the entry to the last position of the ordered
mapping (`pop` then insert-at-end), leaving every other playlist and their
relative order unchanged. -/
theorem rename_playlist_spec :
    (∀ (d : Store) (old new : String), dlookup old d = none →
      rename_playlist d old new = d) ∧
    (∀ (d : Store) (old new : String) (v : List TrackD), dlookup new d = some v →
      rename_playlist d old new = d) ∧
    (∀ (d : Store) (old new : String) (ts : List TrackD),
      dlookup old d = some ts → dlookup new d = none →
      rename_playlist d old new = dpop old d ++ [(new, ts)] ∧
      (rename_playlist d old new).getLast? = some (new, ts) ∧
      dlookup new (rename_playlist d old new) = some ts ∧
      (∀ k, k ≠ old → k ≠ new → dlookup k (rename_playlist d old new) = dlookup k d) ∧
      (rename_playlist d old new).map Prod.fst = (dpop old d).map Prod.fst ++ [new]) := by
  refine ⟨?_, ?_, ?_⟩
  · intro d old new h
    simp [rename_playlist, h]
  · intro d old new v h
    cases hold : dlookup old d with
    | none => simp [rename_playlist, hold]
    | some ts => simp [rename_playlist, hold, h]
  · intro d old new ts hold hnew
    have hdef : rename_playlist d old new = dpop old d ++ [(new, ts)] := by
      simp [rename_playlist, hold, hnew]
    refine ⟨hdef, ?_, ?_, ?_, ?_⟩
    · rw [hdef]
      simp
    · rw [hdef]
      have : dlookup new (dpop old d) = none := dlookup_dpop_of_none d new old hnew
      rw [dlookup_append_of_none _ _ _ this]
      simp [dlookup]
    · intro k hko hkn
      rw [hdef]
      cases hk : dlookup k (dpop old d) with
      | none =>
          rw [dlookup_append_of_none _ _ _ hk]
          rw [dlookup_dpop_ne d k old hko] at hk
          have hkn' : new ≠ k := fun hh => hkn hh.symm
          simp [dlookup, hkn', hk]
      | some v =>
          rw [dlookup_append_of_some _ _ _ _ hk]
          rw [dlookup_dpop_ne d k old hko] at hk
          exact hk.symm
    · rw [hdef]
      simp

/-- Concrete instantiation of `rename_playlist_spec`: renaming playlist `"A"`
to `"C"` in a two-playlist store moves it to the last position with its
track list intact. -/
theorem rename_playlist_spec_witness :
    dlookup "A" [("A", [[("title", JVal.s "x")]]), ("B", ([] : List TrackD))] =
      some [[("title", JVal.s "x")]] ∧
    dlookup "C" [("A", [[("title", JVal.s "x")]]), ("B", ([] : List TrackD))] = none ∧
    rename_playlist [("A", [[("title", JVal.s "x")]]), ("B", ([] : List TrackD))] "A" "C" =
      [("B", ([] : List TrackD)), ("C", [[("title", JVal.s "x")]])] := by
  refine ⟨by decide, by decide, ?_⟩
  have h := (rename_playlist_spec.2.2
    [("A", [[("title", JVal.s "x")]]), ("B", ([] : List TrackD))] "A" "C"
    [[("title", JVal.s "x")]] (by decide) (by decide)).1
  rw [h]
  decide

theorem eok_bind (a : α) (f : α → Except ε β) : (Except.ok a >>= f) = f a := rfl

theorem eerr_bind (e : ε) (f : α → Except ε β) :
    (Except.error e >>= f : Except ε β) = Except.error e := rfl

/-- C4 counterexample: `PlaylistManager.add_track` on a playlist name absent
from the store is not silently ignored — `_tracks` raises `KeyError`. -/
theorem add_track_missing_playlist_raises :
    add_track [("A", ([] : List TrackD))] "B" [("title", JVal.s "x")] =
      Except.error "KeyError: Playlist not found: B" := rfl

/-- C4 (amended): playlist-level operations that look up a playlist by name
(`rename_playlist`, `delete_playlist`) are silently ignored when the name is
missing, and `move_playlist` is ignored when the destination position is out
of range; `rename_track` and `delete_track` with an out-of-range track index,
and `move_track` with an out-of-range destination index `idx + delta`, are
silently ignored; but every track-level operation invoked with a playlist
name absent from the store raises `KeyError` instead of being ignored. -/
theorem manager_missing_resource_behaviour :
    (∀ (d : Store) (old new : String), dlookup old d = none →
      rename_playlist d old new = d) ∧
    (∀ (d : Store) (name : String), dlookup name d = none →
      delete_playlist d name = d) ∧
    (∀ (d : Store) (index delta : ℤ),
      ¬(0 ≤ index + delta ∧ index + delta < (d.length : ℤ)) →
      move_playlist d index delta = some d) ∧
    (∀ (d : Store) (pl : String) (t : TrackD), dlookup pl d = none →
      add_track d pl t = Except.error ("KeyError: Playlist not found: " ++ pl)) ∧
    (∀ (d : Store) (pl : String) (idx : ℤ) (ttl : String), dlookup pl d = none →
      rename_track d pl idx ttl = Except.error ("KeyError: Playlist not found: " ++ pl)) ∧
    (∀ (d : Store) (pl : String) (idx : ℤ), dlookup pl d = none →
      delete_track d pl idx = Except.error ("KeyError: Playlist not found: " ++ pl)) ∧
    (∀ (d : Store) (pl : String) (idx delta : ℤ), dlookup pl d = none →
      move_track d pl idx delta = Except.error ("KeyError: Playlist not found: " ++ pl)) ∧
    (∀ (d : Store) (pl : String) (idx : ℤ) (ttl : String) (ts : List TrackD),
      dlookup pl d = some ts → ¬(0 ≤ idx ∧ idx < (ts.length : ℤ)) →
      rename_track d pl idx ttl = Except.ok d) ∧
    (∀ (d : Store) (pl : String) (idx : ℤ) (ts : List TrackD),
      dlookup pl d = some ts → ¬(0 ≤ idx ∧ idx < (ts.length : ℤ)) →
      delete_track d pl idx = Except.ok d) ∧
    (∀ (d : Store) (pl : String) (idx delta : ℤ) (ts : List TrackD),
      dlookup pl d = some ts → ¬(0 ≤ idx + delta ∧ idx + delta < (ts.length : ℤ)) →
      move_track d pl idx delta = Except.ok d) := by
  refine ⟨?_, ?_, ?_, ?_, ?_, ?_, ?_, ?_, ?_, ?_⟩
  · intro d old new h
    simp [rename_playlist, h]
  · intro d name h
    simp [delete_playlist, h]
  · intro d index delta h
    simp only [move_playlist, List.length_map]
    rw [if_neg h]
    rfl
  · intro d pl t h
    simp [add_track, _tracks, h, eerr_bind]
  · intro d pl idx ttl h
    simp only [rename_track, _tracks, h, eerr_bind]
  · intro d pl idx h
    simp only [delete_track, _tracks, h, eerr_bind]
  · intro d pl idx delta h
    simp only [move_track, _tracks, h, eerr_bind]
  · intro d pl idx ttl ts hpl h
    simp only [rename_track, _tracks, hpl, eok_bind]
    rw [if_neg h]
    rfl
  · intro d pl idx ts hpl h
    simp only [delete_track, _tracks, hpl, eok_bind]
    rw [if_neg h]
    rfl
  · intro d pl idx delta ts hpl h
    simp only [move_track, _tracks, hpl, eok_bind]
    rw [if_neg h]
    rfl

/-- Concrete instantiation of `manager_missing_resource_behaviour`: on the
one-playlist store `[("A", [])]`, deleting playlist `"B"` is a no-op,
deleting track 0 of `"A"` (empty) is a no-op, and renaming a track of the
missing playlist `"B"` raises `KeyError`. -/
theorem manager_missing_resource_witness :
    delete_playlist [("A", ([] : List TrackD))] "B" = [("A", ([] : List TrackD))] ∧
    delete_track [("A", ([] : List TrackD))] "A" 0 = Except.ok [("A", ([] : List TrackD))] ∧
    rename_track [("A", ([] : List TrackD))] "B" 0 "t" =
      Except.error "KeyError: Playlist not found: B" := by
  refine ⟨?_, ?_, ?_⟩
  · exact manager_missing_resource_behaviour.2.1 [("A", [])] "B" (by decide)
  · exact manager_missing_resource_behaviour.2.2.2.2.2.2.2.2.1
      [("A", [])] "A" 0 [] (by decide) (by decide)
  · exact manager_missing_resource_behaviour.2.2.2.2.1
      [("A", [])] "B" 0 "t" (by decide)

/-! ## PlayingState (discord_client.py)

`PlayingState` is a `@dataclass(slots=True)`.  Every field is embedded as an
`Option`, `none` standing for Python `None`: `PlayingState.clear` builds a
bare instance with `PlayingState.__new__` (bypassing `__init__`) and copies
`getattr(default, name, None)` into every field — under `slots=True` the
dataclass machinery removes the class-level default values (the slot
descriptors take their place), so every `getattr` on the bare instance
raises `AttributeError` and the fallback `None` is used: `clear` sets every
field to `None`, not to the dataclass defaults. -/

structure PlayingState where
  title : Option String
  src_url : Option String
  thumb_url : Option String
  duration : Option ℤ
  start_time : Option ℚ
  paused : Option Bool
  pause_at : Option ℚ
  preview_loaded : Option Unit
  preview_loader_started : Option Bool
deriving Repr, DecidableEq

/-- The dataclass defaults (`PlayingState()` as built by the generated
`__init__`; this is the state of `PLAYING_STATE` at module import). -/
def initState : PlayingState :=
  { title := some "", src_url := some "", thumb_url := some "", duration := some 0,
    start_time := some 0, paused := some false, pause_at := some 0,
    preview_loaded := none, preview_loader_started := some false }

/-- Embeds `PlayingState.clear`: every field becomes Python `None` (see the
section comment for why the dataclass defaults are not restored). -/
def clearState : PlayingState :=
  { title := none, src_url := none, thumb_url := none, duration := none,
    start_time := none, paused := none, pause_at := none,
    preview_loaded := none, preview_loader_started := none }

/-- Python truthiness of an optional string (`bool(self.title)`). -/
def truthyStr : Option String → Bool
  | none => false
  | some s => !(s == "")

/-- Python truthiness of an optional boolean (`if self.paused:`). -/
def truthyBool : Option Bool → Bool
  | none => false
  | some b => b

/-- Embeds the `PlayingState.is_playing` property: `bool(self.title)`. -/
def is_playing (st : PlayingState) : Bool := truthyStr st.title

/-- Python `int()` applied to a float difference: truncation toward zero. -/
def pyint (q : ℚ) : ℤ := if q < 0 then ⌈q⌉ else ⌊q⌋

/-- Embeds the `PlayingState.elapsed_seconds` property, with the current
wall-clock `now` passed explicitly.  The result is `none` when the Python
code would raise `TypeError` (an arithmetic operand is `None`). -/
def elapsed_seconds (st : PlayingState) (now : ℚ) : Option ℤ :=
  if is_playing st = false then some 0
  else if truthyBool st.paused then do
    let p ← st.pause_at
    let s ← st.start_time
    pure (pyint (p - s))
  else do
    let s ← st.start_time
    pure (pyint (now - s))

/-- The status of the voice connection: `disconnected` is
`bot.voice_clients == []`; otherwise the single `VoiceClient` is playing,
paused, or idle. -/
inductive VCStatus where
  | disconnected
  | playing
  | pausedVC
  | idle
deriving Repr, DecidableEq

/-- The shared playback state of the process: the voice connection plus the
`PLAYING_STATE` singleton. -/
structure Sys where
  vc : VCStatus
  st : PlayingState
deriving Repr, DecidableEq

/-- A track as passed to `start_playback` by the GUI
(`{"title": …, "url": …}`). -/
structure Track where
  title : String
  url : String
deriving Repr, DecidableEq

/-- The subset of the `yt-dlp` info dict that `start_playback` reads:
`info["id"]` and `info.get("duration", 0)`. -/
structure Info where
  id : String
  duration : Option ℤ
deriving Repr, DecidableEq

/-- Embeds `ensure_join`: an existing connection is returned as is;
otherwise a channel is discovered (via `VOICE_ID` or `TARGET_USER_ID`,
summarised by `joinOk`) or the coroutine returns Python `None` (`none`). -/
def ensure_join (vc : VCStatus) (joinOk : Bool) : Option VCStatus :=
  match vc with
  | .disconnected => if joinOk then some .idle else none
  | v => some v

/-- Embeds `start_playback`: no-op on a falsy `track`; abort without
mutating state when `ensure_join` yields no connection; otherwise replace
the stream and rebuild `PLAYING_STATE` — `clear()` (every field to `None`)
followed by assignments of the new track's metadata with
`start_time = time.time()`. -/
def start_playback (sys : Sys) (track : Option Track) (info : Info)
    (joinOk : Bool) (now : ℚ) : Sys :=
  match track with
  | none => sys
  | some tr =>
    match ensure_join sys.vc joinOk with
    | none => sys
    | some _ =>
      { vc := .playing,
        st := { clearState with
          title := some tr.title,
          src_url := some tr.url,
          thumb_url := some ("https://i.ytimg.com/vi/" ++ info.id ++ "/hqdefault.jpg"),
          duration := some (info.duration.getD 0),
          start_time := some now,
          preview_loaded := none,
          preview_loader_started := some false } }

/-- Embeds `pause_toggle`.  With no voice clients it returns immediately;
on an actively playing client it pauses and records `pause_at = now`; on a
paused client it resumes and shifts `start_time` forward by the paused
duration.  `none` models the `TypeError` raised when the shift's operands
are `None`. -/
def pause_toggle (sys : Sys) (now : ℚ) : Option Sys :=
  match sys.vc with
  | .disconnected => some sys
  | .playing =>
      some { vc := .pausedVC,
             st := { sys.st with paused := some true, pause_at := some now } }
  | .pausedVC => do
      let s ← sys.st.start_time
      let p ← sys.st.pause_at
      pure { vc := .playing,
             st := { sys.st with start_time := some (s + (now - p)), paused := some false } }
  | .idle => some sys

/-- Embeds `leave_voice`: disconnect and clear when connected. -/
def leave_voice (sys : Sys) : Sys :=
  match sys.vc with
  | .disconnected => sys
  | _ => { vc := .disconnected, st := clearState }

/-- Python truthiness of the optional duration (`if dur`). -/
def truthyInt : Option ℤ → Bool
  | none => false
  | some n => !(n == 0)

/-- The end-of-track condition evaluated by `MusicGUI.tick`:
`dur and elapsed >= dur and not st.paused` with
`elapsed = max(0, st.elapsed_seconds or 0)`, evaluated only when
`st.is_playing`.  `none` models a crash of the underlying property. -/
def tickFires (st : PlayingState) (now : ℚ) : Option Bool :=
  if is_playing st = false then some false
  else do
    let e ← elapsed_seconds st now
    let el := max 0 e
    match st.duration with
    | none => pure false
    | some d => pure (decide (d ≠ 0) && decide (d ≤ el) && !(truthyBool st.paused))

/-- One sequential operation on the shared playback state, at the level of
granularity of the coarse locks in the source. -/
inductive Op where
  | opStart (track : Option Track) (info : Info) (joinOk : Bool)
  | opToggle
  | opEndStop
  | opEndOther
  | opLeave

/-- Apply one operation at wall-clock time `now`.  `opEndStop` is a `tick`
that detects end-of-track while the GUI mode is `stop`: the dispatched
`_halt` coroutine crashes before touching the stream (see `halt_coroutine`
below), `st.clear()` runs, and the debounce then marks the state paused at
`now`.  `opEndOther` is the same tick under the other modes, where
`on_track_end` only dispatches coroutines and the debounce is the sole
synchronous mutation of `PLAYING_STATE`. -/
def applyOp (op : Op) (sys : Sys) (now : ℚ) : Option Sys :=
  match op with
  | .opStart track info joinOk => some (start_playback sys track info joinOk now)
  | .opToggle => pause_toggle sys now
  | .opEndStop => do
      let f ← tickFires sys.st now
      if f then
        pure { sys with st := { clearState with paused := some true, pause_at := some now } }
      else
        pure sys
  | .opEndOther => do
      let f ← tickFires sys.st now
      if f then
        pure { sys with st := { sys.st with paused := some true, pause_at := some now } }
      else
        pure sys
  | .opLeave => some (leave_voice sys)

/-- Run a sequence of timestamped operations. -/
def runOps (sys : Sys) : List (Op × ℚ) → Option Sys
  | [] => some sys
  | (op, t) :: rest => do
      let sys' ← applyOp op sys t
      runOps sys' rest

/-- Wall-clock monotonicity of a timestamped operation sequence, from `t0`
through every operation up to a final observation time `tEnd`. -/
def timesMono (t0 : ℚ) : List (Op × ℚ) → ℚ → Bool
  | [], tEnd => decide (t0 ≤ tEnd)
  | (_, t) :: rest, tEnd => decide (t0 ≤ t) && timesMono t rest tEnd

/-- The shared playback state of the process at module import. -/
def initSys : Sys := { vc := .disconnected, st := initState }

/-- The timing invariant of reachable playback states at wall-clock `t`:
whenever a track is playing the start baseline exists and precedes the
pause point (when paused) or the current time (when not); whenever the
voice client is paused the pause point exists and is in the past; and a
paused voice client under a live title implies the paused flag is truthy. -/
def Inv (t : ℚ) (sys : Sys) : Prop :=
  (is_playing sys.st = true →
    ∃ s, sys.st.start_time = some s ∧
      (truthyBool sys.st.paused = true →
        ∃ p, sys.st.pause_at = some p ∧ s ≤ p ∧ p ≤ t) ∧
      (truthyBool sys.st.paused = false → s ≤ t)) ∧
  (sys.vc = .pausedVC → ∃ p, sys.st.pause_at = some p ∧ p ≤ t) ∧
  (sys.vc = .pausedVC → is_playing sys.st = true → truthyBool sys.st.paused = true)

theorem pyint_eq_floor {q : ℚ} (h : 0 ≤ q) : pyint q = ⌊q⌋ := by
  unfold pyint
  rw [if_neg (not_lt.mpr h)]

theorem pyint_mono {a b : ℚ} (h : a ≤ b) : pyint a ≤ pyint b := by
  unfold pyint
  by_cases ha : a < 0 <;> by_cases hb : b < 0
  · rw [if_pos ha, if_pos hb]
    exact Int.ceil_le_ceil h
  · rw [if_pos ha, if_neg hb]
    have hc : (⌈a⌉ : ℤ) ≤ 0 := Int.ceil_le.mpr (by exact_mod_cast ha.le)
    exact le_trans hc (Int.floor_nonneg.mpr (not_lt.mp hb))
  · exact absurd (lt_of_le_of_lt h hb) ha
  · rw [if_neg ha, if_neg hb]
    exact Int.floor_le_floor h

theorem inv_mono {t t' : ℚ} {sys : Sys} (h : Inv t sys) (htt : t ≤ t') : Inv t' sys := by
  obtain ⟨h1, h2, h3⟩ := h
  refine ⟨?_, ?_, h3⟩
  · intro hp
    obtain ⟨s, hs, hT, hF⟩ := h1 hp
    refine ⟨s, hs, ?_, fun hb => (hF hb).trans htt⟩
    intro hb
    obtain ⟨p, hpa, hsp, hpt⟩ := hT hb
    exact ⟨p, hpa, hsp, hpt.trans htt⟩
  · intro hvc
    obtain ⟨p, hpa, hpt⟩ := h2 hvc
    exact ⟨p, hpa, hpt.trans htt⟩

theorem inv_start_le {t : ℚ} {sys : Sys} (h : Inv t sys) (hp : is_playing sys.st = true) :
    ∃ s, sys.st.start_time = some s ∧ s ≤ t := by
  obtain ⟨h1, _, _⟩ := h
  obtain ⟨s, hs, hT, hF⟩ := h1 hp
  cases hb : truthyBool sys.st.paused
  · exact ⟨s, hs, hF hb⟩
  · obtain ⟨p, _, hsp, hpt⟩ := hT hb
    exact ⟨s, hs, hsp.trans hpt⟩

theorem inv_init (t : ℚ) : Inv t initSys := by
  refine ⟨?_, ?_, ?_⟩ <;> intro h <;>
    simp [initSys, initState, is_playing, truthyStr] at h

theorem applyOp_inv {op : Op} {sys sys' : Sys} {t t' : ℚ}
    (hInv : Inv t sys) (htt : t ≤ t')
    (happ : applyOp op sys t' = some sys') : Inv t' sys' := by
  have hInv' : Inv t' sys := inv_mono hInv htt
  cases op with
  | opStart track info joinOk =>
      simp only [applyOp, Option.some.injEq] at happ
      cases track with
      | none =>
          simp only [start_playback] at happ
          exact happ ▸ hInv'
      | some tr =>
          rcases hj : ensure_join sys.vc joinOk with _ | v
          · simp only [start_playback, hj] at happ
            exact happ ▸ hInv'
          · simp only [start_playback, hj] at happ
            subst happ
            refine ⟨?_, ?_, ?_⟩
            · intro _
              refine ⟨t', rfl, ?_, fun _ => le_refl t'⟩
              intro hb
              simp [truthyBool, clearState] at hb
            · intro h
              simp at h
            · intro h
              simp at h
  | opToggle =>
      simp only [applyOp] at happ
      rcases hvc : sys.vc with _ | _ | _ | _
      · simp only [pause_toggle, hvc, Option.some.injEq] at happ
        exact happ ▸ hInv'
      · simp only [pause_toggle, hvc, Option.some.injEq] at happ
        subst happ
        refine ⟨?_, ?_, ?_⟩
        · intro hp
          obtain ⟨s, hs, hst⟩ := inv_start_le hInv' hp
          exact ⟨s, hs, fun _ => ⟨t', rfl, hst, le_refl t'⟩,
            fun hb => by simp [truthyBool] at hb⟩
        · intro _
          exact ⟨t', rfl, le_refl t'⟩
        · intro _ _
          rfl
      · rcases hs : sys.st.start_time with _ | s
        · simp only [pause_toggle, hvc, hs] at happ
          simp at happ
        · rcases hpa : sys.st.pause_at with _ | p
          · simp only [pause_toggle, hvc, hs, hpa] at happ
            simp at happ
          · simp only [pause_toggle, hvc, hs, hpa, Option.bind_eq_bind, Option.some_bind,
              Option.pure_def, Option.some.injEq] at happ
            subst happ
            refine ⟨?_, ?_, ?_⟩
            · intro hp
              have hb : truthyBool sys.st.paused = true := hInv'.2.2 hvc hp
              obtain ⟨s0, hs0, hT, _⟩ := hInv'.1 hp
              obtain ⟨p0, hpa0, hsp, hpt⟩ := hT hb
              have hss : s0 = s := by rw [hs0] at hs; exact (Option.some.injEq _ _).mp hs
              have hpp : p0 = p := by rw [hpa0] at hpa; exact (Option.some.injEq _ _).mp hpa
              subst hss
              subst hpp
              refine ⟨s0 + (t' - p0), rfl, ?_, ?_⟩
              · intro hb2
                simp [truthyBool] at hb2
              · intro _
                linarith
            · intro h
              simp at h
            · intro h
              simp at h
      · simp only [pause_toggle, hvc, Option.some.injEq] at happ
        exact happ ▸ hInv'
  | opEndStop =>
      simp only [applyOp] at happ
      rcases hf : tickFires sys.st t' with _ | f
      · rw [hf] at happ
        simp at happ
      · rw [hf] at happ
        cases f
        · simp at happ
          exact happ ▸ hInv'
        · simp at happ
          subst happ
          refine ⟨?_, ?_, ?_⟩
          · intro hp
            simp [is_playing, truthyStr, clearState] at hp
          · intro _
            exact ⟨t', rfl, le_refl t'⟩
          · intro _ hp
            simp [is_playing, truthyStr, clearState] at hp
  | opEndOther =>
      simp only [applyOp] at happ
      rcases hf : tickFires sys.st t' with _ | f
      · rw [hf] at happ
        simp at happ
      · rw [hf] at happ
        cases f
        · simp at happ
          exact happ ▸ hInv'
        · simp at happ
          subst happ
          refine ⟨?_, ?_, ?_⟩
          · intro hp
            obtain ⟨s, hs, hst⟩ := inv_start_le hInv' hp
            exact ⟨s, hs, fun _ => ⟨t', rfl, hst, le_refl t'⟩,
              fun hb => by simp [truthyBool] at hb⟩
          · intro _
            exact ⟨t', rfl, le_refl t'⟩
          · intro _ _
            rfl
  | opLeave =>
      simp only [applyOp, Option.some.injEq] at happ
      rcases hvc : sys.vc with _ | _ | _ | _
      all_goals simp only [leave_voice, hvc] at happ
      · exact happ ▸ hInv'
      all_goals subst happ
      all_goals refine ⟨?_, ?_, ?_⟩
      all_goals intro h
      all_goals simp [is_playing, truthyStr, clearState] at h

theorem runOps_inv : ∀ (ops : List (Op × ℚ)) (sys sys' : Sys) (t0 tEnd : ℚ),
    Inv t0 sys → timesMono t0 ops tEnd = true →
    runOps sys ops = some sys' → Inv tEnd sys'
  | [], sys, sys', t0, tEnd, hInv, hm, hrun => by
      simp only [runOps, Option.some.injEq] at hrun
      subst hrun
      exact inv_mono hInv (by simpa [timesMono] using hm)
  | (op, t) :: rest, sys, sys', t0, tEnd, hInv, hm, hrun => by
      simp only [timesMono, Bool.and_eq_true, decide_eq_true_eq] at hm
      obtain ⟨h0t, hm'⟩ := hm
      simp only [runOps, Option.bind_eq_bind] at hrun
      rcases happ : applyOp op sys t with _ | sys₁
      · rw [happ] at hrun
        simp at hrun
      · rw [happ] at hrun
        simp only [Option.some_bind] at hrun
        exact runOps_inv rest sys₁ sys' t tEnd (applyOp_inv hInv h0t happ) hm' hrun

theorem elapsed_mono {sys : Sys} {t t' : ℚ} (hInv : Inv t sys) (htt : t ≤ t') :
    ∃ e e', elapsed_seconds sys.st t = some e ∧
      elapsed_seconds sys.st t' = some e' ∧ e ≤ e' := by
  cases hp : is_playing sys.st
  · exact ⟨0, 0, by simp [elapsed_seconds, hp], by simp [elapsed_seconds, hp], le_refl 0⟩
  · obtain ⟨s, hs, hT, hF⟩ := hInv.1 hp
    cases hb : truthyBool sys.st.paused
    · refine ⟨pyint (t - s), pyint (t' - s), ?_, ?_, pyint_mono (by linarith)⟩
      · simp [elapsed_seconds, hp, hb, hs]
      · simp [elapsed_seconds, hp, hb, hs]
    · obtain ⟨p, hpa, _, _⟩ := hT hb
      refine ⟨pyint (p - s), pyint (p - s), ?_, ?_, le_refl _⟩ <;>
        simp [elapsed_seconds, hp, hb, hpa, hs]

/-- C9: on every reachable playback state (any sequence of playback
operations executed at non-decreasing wall-clock times from the initial
state), `elapsed_seconds` equals `paused ? (paused_at - started_at)
: (now - started_at)` floored to an integer, is never negative, and is `0`
whenever nothing is playing. -/
theorem reachable_elapsed_spec (ops : List (Op × ℚ)) (sys : Sys) (t0 now : ℚ)
    (hrun : runOps initSys ops = some sys)
    (hm : timesMono t0 ops now = true) :
    (is_playing sys.st = false → elapsed_seconds sys.st now = some 0) ∧
    (is_playing sys.st = true →
      ∃ s, sys.st.start_time = some s ∧
        (truthyBool sys.st.paused = true →
          ∃ p, sys.st.pause_at = some p ∧
            elapsed_seconds sys.st now = some ⌊p - s⌋ ∧ 0 ≤ ⌊p - s⌋) ∧
        (truthyBool sys.st.paused = false →
          elapsed_seconds sys.st now = some ⌊now - s⌋ ∧ 0 ≤ ⌊now - s⌋)) := by
  have hInv : Inv now sys := runOps_inv ops initSys sys t0 now (inv_init t0) hm hrun
  constructor
  · intro hp
    simp [elapsed_seconds, hp]
  · intro hp
    obtain ⟨s, hs, hT, hF⟩ := hInv.1 hp
    refine ⟨s, hs, ?_, ?_⟩
    · intro hb
      obtain ⟨p, hpa, hsp, hpt⟩ := hT hb
      have h0 : (0:ℚ) ≤ p - s := by linarith
      refine ⟨p, hpa, ?_, Int.floor_nonneg.mpr h0⟩
      simp [elapsed_seconds, hp, hb, hpa, hs, pyint_eq_floor h0]
    · intro hb
      have hsn : s ≤ now := hF hb
      have h0 : (0:ℚ) ≤ now - s := by linarith
      constructor
      · simp [elapsed_seconds, hp, hb, hs, pyint_eq_floor h0]
      · exact Int.floor_nonneg.mpr h0

/-- The reachable state used to instantiate `reachable_elapsed_spec`:
start a track at time 10, pause at 12, resume at 15. -/
def c9ops : List (Op × ℚ) :=
  [(.opStart (some ⟨"T", "u"⟩) ⟨"vid", some 300⟩ true, 10),
   (.opToggle, 12), (.opToggle, 15)]

/-- The playback state reached by `c9ops`. -/
def c9sys : Sys :=
  { vc := .playing,
    st := { title := some "T", src_url := some "u",
            thumb_url := some "https://i.ytimg.com/vi/vid/hqdefault.jpg",
            duration := some 300, start_time := some 13,
            paused := some false, pause_at := some 12,
            preview_loaded := none, preview_loader_started := some false } }

/-- Concrete instantiation of `reachable_elapsed_spec`: after start at 10,
pause at 12 and resume at 15, the state observed at time 20 is playing with
baseline 13 and non-negative floored elapsed time. -/
theorem reachable_elapsed_spec_witness :
    is_playing c9sys.st = true ∧
    (∃ s, c9sys.st.start_time = some s ∧
      (truthyBool c9sys.st.paused = true →
        ∃ p, c9sys.st.pause_at = some p ∧
          elapsed_seconds c9sys.st 20 = some ⌊p - s⌋ ∧ 0 ≤ ⌊p - s⌋) ∧
      (truthyBool c9sys.st.paused = false →
        elapsed_seconds c9sys.st 20 = some ⌊(20:ℚ) - s⌋ ∧ 0 ≤ ⌊(20:ℚ) - s⌋)) :=
  ⟨by decide,
   (reachable_elapsed_spec c9ops c9sys 5 20
     (by
       norm_num [c9ops, c9sys, runOps, applyOp, start_playback, ensure_join,
         pause_toggle, initSys, initState, clearState]
       decide)
     (by decide)).2 (by decide)⟩

/-- Coupling between the voice client's own status and the `paused` flag of
`PLAYING_STATE`, as maintained by `pause_toggle` (an actively playing client
has a falsy `paused`, a paused client a truthy one). -/
def Coupled (sys : Sys) : Prop :=
  (sys.vc = .playing → truthyBool sys.st.paused = false) ∧
  (sys.vc = .pausedVC → truthyBool sys.st.paused = true)

theorem truthyBool_some (b : Bool) : truthyBool (some b) = b := rfl

theorem elapsed_after_resume (st : PlayingState) (s p now : ℚ)
    (hs : st.start_time = some s) (hpa : st.pause_at = some p)
    (hb : truthyBool st.paused = true) :
    elapsed_seconds
        { st with start_time := some (s + (now - p)), paused := some false } now
      = elapsed_seconds st now := by
  cases hp : is_playing st
  · have hp' : truthyStr st.title = false := hp
    simp [elapsed_seconds, is_playing, hp']
  · have hp' : truthyStr st.title = true := hp
    have harith : now - (s + (now - p)) = p - s := by ring
    simp [elapsed_seconds, is_playing, hp', hb, hs, hpa, truthyBool_some, harith]

theorem toggle_step {sys sys' : Sys} {t : ℚ}
    (hInv : Inv t sys) (hC : Coupled sys)
    (h : pause_toggle sys t = some sys') :
    elapsed_seconds sys'.st t = elapsed_seconds sys.st t ∧ Inv t sys' ∧ Coupled sys' := by
  have hInv' : Inv t sys' := @applyOp_inv Op.opToggle sys sys' t t hInv (le_refl t) h
  rcases hvc : sys.vc with _ | _ | _ | _
  · simp only [pause_toggle, hvc, Option.some.injEq] at h
    subst h
    exact ⟨rfl, hInv', hC⟩
  · have hb : truthyBool sys.st.paused = false := hC.1 hvc
    simp only [pause_toggle, hvc, Option.some.injEq] at h
    subst h
    refine ⟨?_, hInv', fun hcon => by simp at hcon, fun _ => rfl⟩
    cases hp : is_playing sys.st
    · have hp' : truthyStr sys.st.title = false := hp
      simp [elapsed_seconds, is_playing, hp']
    · have hp' : truthyStr sys.st.title = true := hp
      obtain ⟨s, hs, _⟩ := inv_start_le hInv hp
      simp [elapsed_seconds, is_playing, hp', hb, hs, truthyBool_some]
  · have hb : truthyBool sys.st.paused = true := hC.2 hvc
    rcases hs : sys.st.start_time with _ | s
    · simp only [pause_toggle, hvc, hs] at h
      simp at h
    · rcases hpa : sys.st.pause_at with _ | p
      · simp only [pause_toggle, hvc, hs, hpa] at h
        simp at h
      · simp only [pause_toggle, hvc, hs, hpa, Option.bind_eq_bind, Option.some_bind,
          Option.pure_def, Option.some.injEq] at h
        subst h
        exact ⟨elapsed_after_resume sys.st s p t hs hpa hb, hInv',
          fun _ => rfl, fun hcon => by simp at hcon⟩
  · simp only [pause_toggle, hvc, Option.some.injEq] at h
    subst h
    exact ⟨rfl, hInv', hC⟩

theorem toggles_mono : ∀ (ts : List ℚ) (sys sys' : Sys) (t0 now : ℚ),
    Inv t0 sys → Coupled sys →
    timesMono t0 (ts.map fun u => (Op.opToggle, u)) now = true →
    runOps sys (ts.map fun u => (Op.opToggle, u)) = some sys' →
    ∃ e0 e, elapsed_seconds sys.st t0 = some e0 ∧
      elapsed_seconds sys'.st now = some e ∧ e0 ≤ e
  | [], sys, sys', t0, now, hInv, _, hm, hrun => by
      simp only [List.map_nil, runOps, Option.some.injEq] at hrun
      subst hrun
      exact elapsed_mono hInv (by simpa [timesMono] using hm)
  | u :: rest, sys, sys', t0, now, hInv, hC, hm, hrun => by
      simp only [List.map_cons, timesMono, Bool.and_eq_true, decide_eq_true_eq] at hm
      obtain ⟨h0u, hm'⟩ := hm
      simp only [List.map_cons, runOps, Option.bind_eq_bind] at hrun
      rcases happ : pause_toggle sys u with _ | sys₁
      · rw [show applyOp .opToggle sys u = none from happ] at hrun
        simp at hrun
      · rw [show applyOp .opToggle sys u = some sys₁ from happ] at hrun
        simp only [Option.some_bind] at hrun
        have hInvu : Inv u sys := inv_mono hInv h0u
        obtain ⟨heq, hInv₁, hC₁⟩ := toggle_step hInvu hC happ
        obtain ⟨e0, e1, he0, he1, h01⟩ := elapsed_mono hInv h0u
        obtain ⟨e1', e, he1', he, h1e⟩ :=
          toggles_mono rest sys₁ sys' u now hInv₁ hC₁ hm' hrun
        rw [heq, he1] at he1'
        have : e1 = e1' := Option.some.inj he1'
        exact ⟨e0, e, he0, he, by omega⟩

/-- C1: `pause_toggle` on a paused client resumes and shifts `start_time`
forward by exactly the paused duration (`start_time += now - pause_at`),
leaving `elapsed_seconds` unchanged at the resume boundary (no jump); and
over any sequence of pause/resume toggles at non-decreasing times without an
intervening stop, `elapsed_seconds` is monotonically non-decreasing. -/
theorem pause_resume_continuous :
    (∀ (sys : Sys) (now s p : ℚ),
      sys.vc = .pausedVC → truthyBool sys.st.paused = true →
      sys.st.start_time = some s → sys.st.pause_at = some p →
      ∃ sys', pause_toggle sys now = some sys' ∧
        sys'.st.start_time = some (s + (now - p)) ∧
        elapsed_seconds sys'.st now = elapsed_seconds sys.st now) ∧
    (∀ (ts : List ℚ) (sys sys' : Sys) (t0 now : ℚ),
      Inv t0 sys → Coupled sys →
      timesMono t0 (ts.map fun u => (Op.opToggle, u)) now = true →
      runOps sys (ts.map fun u => (Op.opToggle, u)) = some sys' →
      ∃ e0 e, elapsed_seconds sys.st t0 = some e0 ∧
        elapsed_seconds sys'.st now = some e ∧ e0 ≤ e) := by
  constructor
  · intro sys now s p hvc hb hs hpa
    refine ⟨{ vc := .playing, st := { sys.st with start_time := some (s + (now - p)), paused := some false } },
      ?_, rfl, elapsed_after_resume sys.st s p now hs hpa hb⟩
    simp only [pause_toggle, hvc, hs, hpa, Option.bind_eq_bind, Option.some_bind,
      Option.pure_def]
  · exact toggles_mono

/-- A paused playback state (track started at 10, paused at 12) used to
instantiate `pause_resume_continuous`. -/
def c1sys : Sys :=
  { vc := .pausedVC,
    st := { title := some "T", src_url := some "u", thumb_url := some "h",
            duration := some 300, start_time := some 10,
            paused := some true, pause_at := some 12,
            preview_loaded := none, preview_loader_started := some false } }

/-- The state `c1sys` reaches after resuming at time 15. -/
def c1sysR : Sys :=
  { vc := .playing,
    st := { title := some "T", src_url := some "u", thumb_url := some "h",
            duration := some 300, start_time := some 13,
            paused := some false, pause_at := some 12,
            preview_loaded := none, preview_loader_started := some false } }

/-- Concrete instantiation of `pause_resume_continuous`: resuming `c1sys`
at 15 shifts the baseline by the paused duration with no jump in
`elapsed_seconds`, and elapsed time from 12 through the resume to 20 is
non-decreasing. -/
theorem pause_resume_continuous_witness :
    (∃ sys', pause_toggle c1sys 15 = some sys' ∧
      sys'.st.start_time = some ((10:ℚ) + (15 - 12)) ∧
      elapsed_seconds sys'.st 15 = elapsed_seconds c1sys.st 15) ∧
    (∃ e0 e, elapsed_seconds c1sys.st 12 = some e0 ∧
      elapsed_seconds c1sysR.st 20 = some e ∧ e0 ≤ e) := by
  constructor
  · exact pause_resume_continuous.1 c1sys 15 10 12 rfl rfl rfl rfl
  · refine pause_resume_continuous.2 [15] c1sys c1sysR 12 20 ?_ ?_ (by decide) ?_
    · refine ⟨fun _ => ⟨10, rfl, fun _ => ⟨12, rfl, by norm_num, by norm_num⟩,
        fun hb => absurd hb (by decide)⟩, fun _ => ⟨12, rfl, by norm_num⟩, fun _ _ => rfl⟩
    · exact ⟨fun h => by simp [c1sys] at h, fun _ => rfl⟩
    · norm_num [runOps, applyOp, pause_toggle, c1sys, c1sysR]

theorem start_playback_join_ok (sys : Sys) (tr : Track) (info : Info) (now : ℚ) :
    start_playback sys (some tr) info true now =
      { vc := .playing,
        st := { clearState with
          title := some tr.title, src_url := some tr.url,
          thumb_url := some ("https://i.ytimg.com/vi/" ++ info.id ++ "/hqdefault.jpg"),
          duration := some (info.duration.getD 0), start_time := some now,
          preview_loaded := none, preview_loader_started := some false } } := by
  obtain ⟨vc, st⟩ := sys
  cases vc <;> rfl

/-- C2 counterexample: after a successful `start_playback` over a state left
by a previously paused track, the `paused` field is Python `None` (what
`clear` wrote), not the dataclass default `False` — "reset to its default"
fails for the pause flags. -/
theorem start_playback_pause_flag_not_default :
    (start_playback
        { vc := .playing,
          st := { title := some "A", src_url := some "ua", thumb_url := some "th",
                  duration := some 100, start_time := some 50,
                  paused := some true, pause_at := some 60,
                  preview_loaded := none, preview_loader_started := some true } }
        (some { title := "B", url := "ub" }) { id := "idB", duration := some 200 }
        true 100).st.paused ≠ initState.paused := by
  decide

/-- C2 (amended): after `start_playback(T)` succeeds, `PlaybackState` holds
`title == T.title`, `src_url == T.url`, `start_time = now`, the thumbnail
URL and duration of the freshly resolved metadata, and every field
previously set by an earlier track has been cleared to Python `None`
(falsy — observationally an unpaused default — though not the literal
dataclass default for the pause flags) or explicitly reset: the result is
independent of the previous state, so no field value leaks across tracks. -/
theorem start_playback_no_leak (sys1 sys2 : Sys) (tr : Track) (info : Info) (now : ℚ) :
    start_playback sys1 (some tr) info true now = start_playback sys2 (some tr) info true now ∧
    (start_playback sys1 (some tr) info true now).st.title = some tr.title ∧
    (start_playback sys1 (some tr) info true now).st.src_url = some tr.url ∧
    (start_playback sys1 (some tr) info true now).st.thumb_url =
      some ("https://i.ytimg.com/vi/" ++ info.id ++ "/hqdefault.jpg") ∧
    (start_playback sys1 (some tr) info true now).st.duration = some (info.duration.getD 0) ∧
    (start_playback sys1 (some tr) info true now).st.start_time = some now ∧
    (start_playback sys1 (some tr) info true now).st.paused = none ∧
    truthyBool (start_playback sys1 (some tr) info true now).st.paused = false ∧
    (start_playback sys1 (some tr) info true now).st.pause_at = none ∧
    (start_playback sys1 (some tr) info true now).st.preview_loaded = none ∧
    (start_playback sys1 (some tr) info true now).st.preview_loader_started = some false := by
  rw [start_playback_join_ok, start_playback_join_ok]
  exact ⟨rfl, rfl, rfl, rfl, rfl, rfl, rfl, rfl, rfl, rfl, rfl⟩

/-- C3: `start_playback` with a null/empty (falsy) track is a no-op, and
when no voice connection can be established (no existing connection and
channel discovery fails, so `ensure_join` returns `None`) it returns
without mutating any field of `PlaybackState` and without raising an error
to the caller. -/
theorem start_playback_noop_cases :
    (∀ (sys : Sys) (info : Info) (joinOk : Bool) (now : ℚ),
      start_playback sys none info joinOk now = sys) ∧
    (∀ (sys : Sys) (tr : Track) (info : Info) (now : ℚ),
      sys.vc = .disconnected →
      start_playback sys (some tr) info false now = sys) := by
  constructor
  · intro sys info joinOk now
    rfl
  · intro sys tr info now h
    obtain ⟨vc, st⟩ := sys
    simp only at h
    subst h
    rfl

/-- Concrete instantiation of `start_playback_noop_cases`: on the initial
(disconnected) state with failing channel discovery, `start_playback`
leaves the state untouched. -/
theorem start_playback_noop_witness :
    start_playback initSys (some { title := "T", url := "u" })
      { id := "i", duration := none } false 5 = initSys :=
  start_playback_noop_cases.2 initSys { title := "T", url := "u" }
    { id := "i", duration := none } 5 rfl

/-! ## GUI end-of-track policy (gui.py)

`MusicGUI.tick` invokes `on_track_end` when the end-of-track condition
fires.  The GUI state is the playlist listbox selection, the track treeview
selection, the live playlist store (`pm.data`) and `current_track`.  The
listbox/treeview rows are rebuilt from the store, so a selection index
addresses the store directly. -/

structure GuiState where
  plSel : Option ℕ
  trSel : Option ℕ
  playlists : Store
  current_track : Option TrackD
deriving Repr, DecidableEq

/-- The playback mode radio buttons (`self.mode_var`). -/
inductive Mode where
  | loop
  | stop
  | next
  | random
deriving Repr, DecidableEq

/-- What `on_track_end` does besides mutating state: dispatch a coroutine
(whose result is recorded), play a track via `start_playback`, or nothing. -/
inductive EndAction where
  | nothing
  | played (tr : TrackD)
  | halted (res : Except String Unit)
deriving Repr

/-- Modelled from the source: `BOT_LOOP` is `asyncio.new_event_loop()`
(discord_client.py), an `asyncio` event loop object, which defines no
attribute named `voice_clients` (that attribute lives on the `discord.Client`
object `bot`).  The attribute lookup in `_halt` therefore fails. -/
def BOT_LOOP_voice_clients : Option (List VCStatus) := none

/-- The `_halt` coroutine dispatched by the `stop` branch of `on_track_end`:
`if BOT_LOOP.voice_clients: BOT_LOOP.voice_clients[0].stop()`.  The very
first attribute access raises `AttributeError`, so the active stream is
never stopped. -/
def halt_coroutine : Except String Unit :=
  match BOT_LOOP_voice_clients with
  | none => .error "AttributeError: event loop object has no attribute voice_clients"
  | some _ => .ok ()

/-- Embeds `MusicGUI.selected_track`.  The outer `none` is a raised
exception (selection out of sync with the store); `some none` is the
Python `None` returned when either selection is empty. -/
def selected_track (g : GuiState) : Option (Option TrackD) :=
  match g.plSel, g.trSel with
  | some i, some j =>
      match g.playlists.get? i with
      | none => none
      | some kv =>
          match kv.2.get? j with
          | none => none
          | some tr => some (some tr)
  | _, _ => some none

/-- Embeds `MusicGUI.play_selected`: if a (truthy) track is selected, set
`current_track` and dispatch `start_playback` on it. -/
def play_selected (g : GuiState) : Option (GuiState × EndAction) :=
  match selected_track g with
  | none => none
  | some none => some (g, .nothing)
  | some (some tr) =>
      if tr.isEmpty then some (g, .nothing)
      else some ({ g with current_track := some tr }, .played tr)

/-- The `else` (stop) branch of `on_track_end`: dispatch `_halt`, clear
`PLAYING_STATE`, clear the current track. -/
def stop_branch (g : GuiState) (_st : PlayingState) :
    Option (GuiState × PlayingState × EndAction) :=
  some ({ g with current_track := none }, clearState, .halted halt_coroutine)

/-- Embeds `MusicGUI.on_track_end`.  The Python `if/elif/else` chain sends
`mode == "loop"` with a falsy `current_track` to the `else` (stop) branch.
`r` is the value drawn by `random.randrange(len(tracks))` in the `random`
branch (any value in `[0, len)`).  `none` models a raised exception. -/
def on_track_end (mode : Mode) (g : GuiState) (st : PlayingState) (r : ℕ) :
    Option (GuiState × PlayingState × EndAction) :=
  match mode with
  | .loop =>
      match g.current_track with
      | some tr =>
          if tr.isEmpty then stop_branch g st
          else some (g, st, .played tr)
      | none => stop_branch g st
  | .next =>
      match g.plSel with
      | none => some (g, st, .nothing)
      | some i =>
          match g.playlists.get? i with
          | none => none
          | some kv =>
              if kv.2.isEmpty then some (g, st, .nothing)
              else
                let cur : ℤ := match g.trSel with | some j => (j : ℤ) | none => -1
                let nxt : ℕ := ((cur + 1) % (kv.2.length : ℤ)).toNat
                match play_selected { g with trSel := some nxt } with
                | none => none
                | some (g', act) => some (g', st, act)
  | .random =>
      match g.plSel with
      | none => some (g, st, .nothing)
      | some i =>
          match g.playlists.get? i with
          | none => none
          | some kv =>
              if kv.2.isEmpty then some (g, st, .nothing)
              else
                match play_selected { g with trSel := some r } with
                | none => none
                | some (g', act) => some (g', st, act)
  | .stop => stop_branch g st

/-- C5: evaluation of the end-of-track policy under `mode=stop`.  The code
clears `PlaybackState` (so `is_playing` becomes false) and sets the current
track to null, but the dispatched `_halt` coroutine raises `AttributeError`
(`BOT_LOOP` is the event loop, which has no `voice_clients`), so the active
audio stream is never stopped — contradicting the claimed "stops the active
audio stream". -/
theorem on_track_end_stop_behaviour (g : GuiState) (st : PlayingState) (r : ℕ) :
    on_track_end .stop g st r =
      some ({ g with current_track := none }, clearState,
        .halted (Except.error
          "AttributeError: event loop object has no attribute voice_clients")) ∧
    is_playing clearState = false ∧
    ({ g with current_track := none } : GuiState).current_track = none :=
  ⟨rfl, rfl, rfl⟩

theorem next_index_cast (j n : ℕ) :
    (((j : ℤ) + 1) % (n : ℤ)).toNat = (j + 1) % n := by
  have h : ((j : ℤ) + 1) = ((j + 1 : ℕ) : ℤ) := by push_cast; ring
  rw [h, ← Int.natCast_mod]
  exact Int.toNat_natCast _

/-- C6: under `mode=next` with a selected playlist and a selected track
index `j`, the policy advances the selection to `(j + 1) % length`
(wrapping to 0 past the end), updates the visible selection, and plays that
track; with no playlist selected it is a no-op. -/
theorem on_track_end_next_spec :
    (∀ (g : GuiState) (st : PlayingState) (r : ℕ), g.plSel = none →
      on_track_end .next g st r = some (g, st, .nothing)) ∧
    (∀ (g : GuiState) (st : PlayingState) (r i j : ℕ) (name : String)
        (ts : List TrackD) (tr : TrackD),
      g.plSel = some i → g.trSel = some j →
      g.playlists.get? i = some (name, ts) →
      ts.get? ((j + 1) % ts.length) = some tr → tr ≠ [] →
      on_track_end .next g st r =
        some ({ g with trSel := some ((j + 1) % ts.length), current_track := some tr },
          st, .played tr)) := by
  constructor
  · intro g st r hpl
    simp [on_track_end, hpl]
  · intro g st r i j name ts tr hpl htr hget hnx hne
    have hne0 : ts ≠ [] := by
      intro h0
      rw [h0] at hnx
      simp at hnx
    have hempty : ts.isEmpty = false := by
      simp [List.isEmpty_iff, hne0]
    have hidx : (((j : ℤ) + 1) % ((ts.length : ℕ) : ℤ)).toNat = (j + 1) % ts.length :=
      next_index_cast j ts.length
    have htrm : tr.isEmpty = false := by
      simp [List.isEmpty_iff, hne]
    simp only [on_track_end, hpl, hget, hempty, Bool.false_eq_true, if_false, htr,
      hidx, play_selected, selected_track, hnx, htrm]

/-- Concrete instantiation of `on_track_end_next_spec`: a 3-track playlist
at selected index 2 (the last) wraps to index 0 and plays the first track. -/
theorem on_track_end_next_witness :
    on_track_end .next
      { plSel := some 0, trSel := some 2,
        playlists := [("P", [[("title", JVal.s "t0")], [("title", JVal.s "t1")],
          [("title", JVal.s "t2")]])],
        current_track := none } initState 0 =
      some ({ plSel := some 0, trSel := some 0,
              playlists := [("P", [[("title", JVal.s "t0")], [("title", JVal.s "t1")],
                [("title", JVal.s "t2")]])],
              current_track := some [("title", JVal.s "t0")] }, initState,
        .played [("title", JVal.s "t0")]) :=
  on_track_end_next_spec.2
    { plSel := some 0, trSel := some 2,
      playlists := [("P", [[("title", JVal.s "t0")], [("title", JVal.s "t1")],
        [("title", JVal.s "t2")]])],
      current_track := none } initState 0 0 2 "P"
    [[("title", JVal.s "t0")], [("title", JVal.s "t1")], [("title", JVal.s "t2")]]
    [("title", JVal.s "t0")] rfl rfl rfl rfl (by decide)

/-- C7: under `mode=random` with a selected, non-empty playlist, the policy
selects the index drawn by `random.randrange(len(tracks))` — any index in
`[0, length)` — and plays that track; on a 1-track playlist every draw
re-selects index 0; with no playlist selected it is a no-op. -/
theorem on_track_end_random_spec :
    (∀ (g : GuiState) (st : PlayingState) (r : ℕ), g.plSel = none →
      on_track_end .random g st r = some (g, st, .nothing)) ∧
    (∀ (g : GuiState) (st : PlayingState) (r i : ℕ) (name : String)
        (ts : List TrackD) (tr : TrackD),
      g.plSel = some i → g.playlists.get? i = some (name, ts) →
      ts.get? r = some tr → tr ≠ [] →
      on_track_end .random g st r =
        some ({ g with trSel := some r, current_track := some tr }, st, .played tr)) ∧
    (∀ (g : GuiState) (st : PlayingState) (r i : ℕ) (name : String)
        (ts : List TrackD) (tr : TrackD),
      g.plSel = some i → g.playlists.get? i = some (name, ts) →
      ts.length = 1 → r < ts.length → ts.get? 0 = some tr → tr ≠ [] →
      on_track_end .random g st r =
        some ({ g with trSel := some 0, current_track := some tr }, st, .played tr)) := by
  have hmain : ∀ (g : GuiState) (st : PlayingState) (r i : ℕ) (name : String)
      (ts : List TrackD) (tr : TrackD),
      g.plSel = some i → g.playlists.get? i = some (name, ts) →
      ts.get? r = some tr → tr ≠ [] →
      on_track_end .random g st r =
        some ({ g with trSel := some r, current_track := some tr }, st, .played tr) := by
    intro g st r i name ts tr hpl hget hr hne
    have hne0 : ts ≠ [] := by
      intro h0
      rw [h0] at hr
      simp at hr
    have hempty : ts.isEmpty = false := by
      simp [List.isEmpty_iff, hne0]
    have htrm : tr.isEmpty = false := by
      simp [List.isEmpty_iff, hne]
    simp only [on_track_end, hpl, hget, hempty, Bool.false_eq_true, if_false,
      play_selected, selected_track, hr, htrm]
  refine ⟨?_, hmain, ?_⟩
  · intro g st r hpl
    simp [on_track_end, hpl]
  · intro g st r i name ts tr hpl hget hlen hr h0 hne
    have hr0 : r = 0 := by omega
    subst hr0
    exact hmain g st 0 i name ts tr hpl hget h0 hne

/-- Concrete instantiation of `on_track_end_random_spec`: on a 1-track
playlist the draw `r = 0` re-selects index 0 and plays the only track. -/
theorem on_track_end_random_witness :
    on_track_end .random
      { plSel := some 0, trSel := none,
        playlists := [("Q", [[("url", JVal.s "u0")]])],
        current_track := none } initState 0 =
      some ({ plSel := some 0, trSel := some 0,
              playlists := [("Q", [[("url", JVal.s "u0")]])],
              current_track := some [("url", JVal.s "u0")] }, initState,
        .played [("url", JVal.s "u0")]) :=
  on_track_end_random_spec.2.2
    { plSel := some 0, trSel := none,
      playlists := [("Q", [[("url", JVal.s "u0")]])],
      current_track := none } initState 0 0 "Q" [[("url", JVal.s "u0")]]
    [("url", JVal.s "u0")] rfl rfl rfl (by decide) rfl (by decide)

end MusicBot
